import Mathlib

/-!
Verification of the vendored `debounce` utility (`src/src/app.ts`, second
document: the lodash-style `debounce` function).  The closure state of one
controller instance is embedded as an explicit record `DState`, the host's
timer table (the set of live `setTimeout` / `requestAnimationFrame` handles)
as the field `live`, and each closure function of the source
(`invokeFunc`, `startTimer`, `cancelTimer`, `leadingEdge`, `remainingWait`,
`shouldInvoke`, `timerExpired`, `trailingEdge`, `cancel`, `flush`,
`pending`, `debounced`) as a Lean function over that record.  Times are
integers (milliseconds as read from `Date.now()`); the wrapped action is
modelled as a pure function from the argument list to an integer result.
-/

namespace Debounce

/-- Model of the JavaScript values that reach the construction prologue of
`debounce` (`func`, `wait`, the `options` fields).  A string is modelled by
its numeric coercion (`none` when `ToNumber` yields `NaN`); only nonempty
strings are represented, so a modelled string is always truthy. -/
inductive JSVal where
  | undef
  | nullv
  | boolv (b : Bool)
  | num (n : Int)
  | nan
  | str (numv : Option Int)
  | fnv
  | obj
deriving DecidableEq

/-- JavaScript truthiness of a modelled value. -/
def truthy : JSVal → Bool
  | .undef => false
  | .nullv => false
  | .boolv b => b
  | .num n => n != 0
  | .nan => false
  | .str _ => true
  | .fnv => true
  | .obj => true

/-- JavaScript `ToNumber` restricted to the value model; `none` models `NaN`
(`undefined`, non-numeric strings, plain objects, functions). -/
def jsToNum : JSVal → Option Int
  | .undef => none
  | .nullv => some 0
  | .boolv b => some (if b then 1 else 0)
  | .num n => some n
  | .nan => none
  | .str v => v
  | .fnv => none
  | .obj => none

/-- `typeof v === 'function'`. -/
def isCallable : JSVal → Bool
  | .fnv => true
  | _ => false

/-- The source expression `(+v || 0)`: coerce to a number, with `NaN` and `0`
both falling back to `0`. -/
def numOr0 (v : JSVal) : Int := (jsToNum v).getD 0

/-- The recognized fields of the `options` object; a missing field is
`none` (the source tests field presence with `'maxWait' in options` and
`'trailing' in options`). -/
structure JSOptions where
  leading : Option JSVal := none
  maxWait : Option JSVal := none
  trailing : Option JSVal := none
deriving DecidableEq

/-- The configuration a successful `debounce(func, wait, options)` call
fixes for the lifetime of the controller. -/
structure Cfg where
  func : List Int → Int
  wait : Int
  leading : Bool
  trailing : Bool
  maxing : Bool
  maxWait : Int
  useRAF : Bool

/-- Translation of the construction prologue of `debounce`.  `fv` is the JS
value supplied as `func` and `f` its call semantics when `fv` is callable;
`wv` is the `wait` argument; `options` is `none` exactly when
`isObject(options)` is false; `hasRAF` records whether
`root.requestAnimationFrame` is a function.  When `maxWait` is absent the
local variable stays `undefined` in the source and is never read (because
`maxing` is false); it is modelled as `0`. -/
def mkCfg (fv : JSVal) (f : List Int → Int) (wv : JSVal) (options : Option JSOptions)
    (hasRAF : Bool) : Except String Cfg :=
  let useRAF := !(truthy wv) && wv != JSVal.num 0 && hasRAF
  if isCallable fv = false then
    Except.error "Expected a function"
  else
    let wait := numOr0 wv
    let leading := match options with
      | some o => truthy (o.leading.getD JSVal.undef)
      | none => false
    let maxing := match options with
      | some o => o.maxWait.isSome
      | none => false
    let maxWait := match options with
      | some o => if o.maxWait.isSome then max (numOr0 (o.maxWait.getD JSVal.undef)) wait else 0
      | none => 0
    let trailing := match options with
      | some o => match o.trailing with
        | some tv => truthy tv
        | none => true
      | none => true
    Except.ok { func := f, wait := wait, leading := leading, trailing := trailing,
                maxing := maxing, maxWait := maxWait, useRAF := useRAF }

/-- `true` exactly when the construction result is `Except.ok`. -/
def ctorOk (e : Except String Cfg) : Bool :=
  match e with
  | .ok _ => true
  | .error _ => false

/-- Record of one actual execution of the wrapped action. -/
structure Inv where
  time : Int
  args : List Int
  ret : Int
deriving DecidableEq

/-- The closure state of one controller plus the host's timer table.
`live` lists the handles of scheduled callbacks that have neither fired nor
been cancelled, each with its due time (`none` for an animation-frame
callback, which has no numeric due time).  `timerId` is the closure
variable of the same name; `nextHandle` is the host's fresh-handle
counter. -/
structure DState where
  lastArgs : Option (List Int)
  lastThis : Option Int
  result : Option Int
  timerId : Option Nat
  lastCallTime : Option Int
  lastInvokeTime : Int
  live : List (Nat × Option Int)
  nextHandle : Nat
deriving DecidableEq

/-- The state right after construction: every closure variable `undefined`
except `lastInvokeTime = 0`, and no scheduled callback. -/
def initState : DState :=
  { lastArgs := none, lastThis := none, result := none, timerId := none,
    lastCallTime := none, lastInvokeTime := 0, live := [], nextHandle := 0 }

/-- `invokeFunc(time)`: run `func` on the recorded arguments, clear the
pending call, stamp `lastInvokeTime`, cache and return the result.  In the
source `lastArgs` is always defined here; the model defaults to `[]`. -/
def invokeFunc (cfg : Cfg) (time : Int) (s : DState) : DState × Inv :=
  let args := s.lastArgs.getD []
  let r := cfg.func args
  ({ s with lastArgs := none, lastThis := none, lastInvokeTime := time,
            result := some r },
   { time := time, args := args, ret := r })

/-- Remove a (possibly undefined) handle from the host's timer table;
models `cancelAnimationFrame(timerId)` called with the current closure
variable, a no-op when it is `undefined` or stale. -/
def cancelLive (id : Option Nat) (s : DState) : DState :=
  match id with
  | none => s
  | some h => { s with live := s.live.filter (fun p => p.1 != h) }

/-- `startTimer(pendingFunc, wait)`: in the frame-based backend, first
cancel the frame held in `timerId`, then request a new frame; in the
delay-based backend, call `setTimeout` WITHOUT clearing the previous handle
(the source comment itself asks why no `clearTimeout` happens here).  The
scheduled callback is always `timerExpired`, so only the handle and due
time are recorded.  Returns the new handle. -/
def startTimer (cfg : Cfg) (now delay : Int) (s : DState) : DState × Nat :=
  if cfg.useRAF then
    let s1 := cancelLive s.timerId s
    ({ s1 with live := (s1.nextHandle, none) :: s1.live, nextHandle := s1.nextHandle + 1 },
     s1.nextHandle)
  else
    ({ s with live := (s.nextHandle, some (now + delay)) :: s.live,
              nextHandle := s.nextHandle + 1 },
     s.nextHandle)

/-- `cancelTimer(id)`: `cancelAnimationFrame(id)` or `clearTimeout(id)`;
either way the underlying scheduled callback is removed. -/
def cancelTimer (cfg : Cfg) (id : Nat) (s : DState) : DState :=
  { s with live := s.live.filter (fun p => p.1 != id) }

/-- `shouldInvoke(time)`: first call ever, burst settled
(`timeSinceLastCall >= wait`), clock went backwards
(`timeSinceLastCall < 0`), or the `maxWait` ceiling was hit. -/
def shouldInvoke (cfg : Cfg) (time : Int) (s : DState) : Bool :=
  match s.lastCallTime with
  | none => true
  | some lct =>
    let timeSinceLastCall := time - lct
    let timeSinceLastInvoke := time - s.lastInvokeTime
    decide (cfg.wait ≤ timeSinceLastCall) || decide (timeSinceLastCall < 0) ||
      (cfg.maxing && decide (cfg.maxWait ≤ timeSinceLastInvoke))

/-- `remainingWait(time)`: the delay for a rescheduled timer.  Only called
when `lastCallTime` is defined (otherwise `shouldInvoke` is true); the
model defaults the missing value to `0`. -/
def remainingWait (cfg : Cfg) (time : Int) (s : DState) : Int :=
  let timeSinceLastCall := time - s.lastCallTime.getD 0
  let timeSinceLastInvoke := time - s.lastInvokeTime
  let timeWaiting := cfg.wait - timeSinceLastCall
  if cfg.maxing then min timeWaiting (cfg.maxWait - timeSinceLastInvoke) else timeWaiting

/-- `leadingEdge(time)`: stamp `lastInvokeTime`, start the trailing timer,
and invoke now only when `leading` is set (otherwise return the cached
result).  Result triple: new state, the execution (if any), the returned
value. -/
def leadingEdge (cfg : Cfg) (time : Int) (s : DState) : DState × Option Inv × Option Int :=
  let s1 := { s with lastInvokeTime := time }
  let p := startTimer cfg time cfg.wait s1
  let s2 := { p.1 with timerId := some p.2 }
  if cfg.leading then
    let q := invokeFunc cfg time s2
    (q.1, some q.2, q.1.result)
  else (s2, none, s2.result)

/-- `trailingEdge(time)`: clear `timerId`; invoke only when `trailing` is
set and a pending call (`lastArgs`) exists, else just drop the pending
call and return the cached result. -/
def trailingEdge (cfg : Cfg) (time : Int) (s : DState) : DState × Option Inv × Option Int :=
  let s1 := { s with timerId := none }
  if cfg.trailing && s1.lastArgs.isSome then
    let q := invokeFunc cfg time s1
    (q.1, some q.2, q.1.result)
  else ({ s1 with lastArgs := none, lastThis := none }, none, s1.result)

/-- `timerExpired` (the scheduled callback), run at time `time`: take the
trailing edge when due, otherwise restart the timer for
`remainingWait(time)`. -/
def timerExpired (cfg : Cfg) (time : Int) (s : DState) : DState × Option Inv :=
  if shouldInvoke cfg time s then
    let r := trailingEdge cfg time s
    (r.1, r.2.1)
  else
    let p := startTimer cfg time (remainingWait cfg time s) s
    ({ p.1 with timerId := some p.2 }, none)

/-- Host delivery of a scheduled callback: the fired handle `h` leaves the
timer table and `timerExpired` runs at time `time`.  The source callback
does not check whether the fired handle is the current `timerId`. -/
def fireTimer (cfg : Cfg) (time : Int) (h : Nat) (s : DState) : DState × Option Inv :=
  timerExpired cfg time { s with live := s.live.filter (fun p => p.1 != h) }

/-- `cancel()`: clear the underlying timer held in `timerId` (when any),
reset `lastInvokeTime` to `0`, and clear `lastArgs`, `lastCallTime`,
`lastThis` and `timerId`. -/
def cancel (cfg : Cfg) (s : DState) : DState :=
  let s1 := match s.timerId with
    | some id => cancelTimer cfg id s
    | none => s
  { s1 with lastInvokeTime := 0, lastArgs := none, lastCallTime := none,
            lastThis := none, timerId := none }

/-- `flush()`: cached result when no timer is held, else take the trailing
edge now. -/
def flush (cfg : Cfg) (time : Int) (s : DState) : DState × Option Inv × Option Int :=
  match s.timerId with
  | none => (s, none, s.result)
  | some _ => trailingEdge cfg time s

/-- `pending()`: whether `timerId` currently holds a handle. -/
def pending (s : DState) : Bool := s.timerId.isSome

/-- The shared fall-through at the bottom of `debounced`: schedule a timer
when none is held, then return the cached result. -/
def debouncedTail (cfg : Cfg) (time : Int) (s : DState) : DState × Option Inv × Option Int :=
  if s.timerId = none then
    let p := startTimer cfg time cfg.wait s
    ({ p.1 with timerId := some p.2 }, none, p.1.result)
  else (s, none, s.result)

/-- The wrapper `debounced(...args)` called at time `time` with argument
list `args` and `this`-value `thisv`: compute `shouldInvoke` on the old
state, record the pending call, then dispatch exactly as the source:
leading edge when no timer is held, immediate invoke plus fresh timer in
the maxing tight-loop path, otherwise the fall-through. -/
def debounced (cfg : Cfg) (time : Int) (args : List Int) (thisv : Int) (s : DState) :
    DState × Option Inv × Option Int :=
  let isInvoking := shouldInvoke cfg time s
  let s1 := { s with lastArgs := some args, lastThis := some thisv,
                     lastCallTime := some time }
  if isInvoking then
    if s1.timerId = none then leadingEdge cfg time s1
    else if cfg.maxing then
      let p := startTimer cfg time cfg.wait s1
      let s2 := { p.1 with timerId := some p.2 }
      let q := invokeFunc cfg time s2
      (q.1, some q.2, q.1.result)
    else debouncedTail cfg time s1
  else debouncedTail cfg time s1

/-- The due time of the handle currently held in `timerId`, read from the
host's timer table. -/
def currentExpiry (s : DState) : Option Int :=
  match s.timerId with
  | none => none
  | some h =>
    match s.live.find? (fun p => p.1 == h) with
    | some (_, some e) => some e
    | _ => none

/-- One event-loop step of a burst: if the held timer is due at or before
the incoming call (its due time `e ≤ t`), the host delivers it exactly at
its due time first; then the wrapper call `(t, a)` is delivered.  (In the
configurations proved below the rescheduled due time always lands strictly
after `t`, so at most one delivery per gap is possible.) -/
def burstStep (cfg : Cfg) (s : DState) (t : Int) (a : List Int) : DState × List Inv :=
  let step1 := match s.timerId, currentExpiry s with
    | some h, some e => if e ≤ t then fireTimer cfg e h s else (s, none)
    | _, _ => (s, none)
  let d := debounced cfg t a 0 step1.1
  (d.1, step1.2.toList ++ d.2.1.toList)

/-- Deliver a list of timed wrapper calls under the event-loop discipline
of `burstStep`, collecting every execution of the wrapped action. -/
def runBurst (cfg : Cfg) : DState → List (Int × List Int) → DState × List Inv
  | s, [] => (s, [])
  | s, (t, a) :: rest =>
    let b := burstStep cfg s t a
    let r := runBurst cfg b.1 rest
    (r.1, b.2 ++ r.2)

/-- After the burst: let the held timer fire exactly at its due time, and
once more if it rescheduled itself.  (In the configurations proved below
the controller is quiescent after at most two firings.) -/
def drain (cfg : Cfg) (s : DState) : DState × List Inv :=
  match s.timerId, currentExpiry s with
  | some h, some e =>
    let r1 := fireTimer cfg e h s
    (match r1.1.timerId, currentExpiry r1.1 with
     | some h1, some e1 =>
       let r2 := fireTimer cfg e1 h1 r1.1
       (r2.1, r1.2.toList ++ r2.2.toList)
     | _, _ => (r1.1, r1.2.toList))
  | _, _ => (s, [])

/-- A whole scenario from a fresh controller: deliver the burst, then let
the pending timer run to quiescence. -/
def runBurstThenSettle (cfg : Cfg) (calls : List (Int × List Int)) : DState × List Inv :=
  let r := runBurst cfg initState calls
  let d := drain cfg r.1
  (d.1, r.2 ++ d.2)

/-- Events that can reach the controller with no further wrapper call:
host delivery of a scheduled callback, `flush`, `cancel`. -/
inductive PostEv where
  | fireEv (t : Int) (h : Nat)
  | flushEv (t : Int)
  | cancelEv

/-- Deliver a list of call-free events, collecting every execution. -/
def runPost (cfg : Cfg) : DState → List PostEv → DState × List Inv
  | s, [] => (s, [])
  | s, PostEv.fireEv t h :: evs =>
    let r := fireTimer cfg t h s
    let rest := runPost cfg r.1 evs
    (rest.1, r.2.toList ++ rest.2)
  | s, PostEv.flushEv t :: evs =>
    let r := flush cfg t s
    let rest := runPost cfg r.1 evs
    (rest.1, r.2.1.toList ++ rest.2)
  | s, PostEv.cancelEv :: evs =>
    runPost cfg (cancel cfg s) evs

/-- Invariant holding between the calls of a default-options burst: the
latest call is recorded as the pending call, and exactly one timer is
live, held in `timerId`, due in the half-open window after the latest
call and at most `wait` later. -/
def BurstInv (cfg : Cfg) (t : Int) (a : List Int) (s : DState) : Prop :=
  s.lastCallTime = some t ∧ s.lastArgs = some a ∧
  ∃ h e, s.timerId = some h ∧ s.live = [(h, some e)] ∧ t < e ∧ e ≤ t + cfg.wait

/-- The call state `cancel()` leaves behind: no pending call, no recorded
call time, no held timer. -/
def Cleared (s : DState) : Prop :=
  s.lastArgs = none ∧ s.lastCallTime = none ∧ s.timerId = none

/-- Default options, `wait = 10`, delay-based backend. -/
def cfgDefault : Cfg :=
  { func := fun l => l.sum, wait := 10, leading := false, trailing := true,
    maxing := false, maxWait := 0, useRAF := false }

/-- `leading = true, trailing = true`, `wait = 10`, delay-based backend. -/
def cfgLead : Cfg :=
  { func := fun l => l.sum, wait := 10, leading := true, trailing := true,
    maxing := false, maxWait := 0, useRAF := false }

/-- `maxWait = 2` with `wait = 2`, default edges, delay-based backend. -/
def cfgMax : Cfg :=
  { func := fun l => l.sum, wait := 2, leading := false, trailing := true,
    maxing := true, maxWait := 2, useRAF := false }

/-- The state after one wrapper call at `t = 0` with arguments `[1]` on a
fresh `cfgMax` controller: one timer live (due at `2`), no execution yet. -/
def sMax1 : DState := (debounced cfgMax 0 [1] 0 initState).1

/-- The configuration `mkCfg` produces for a callable action, `wait`
omitted (`undefined`), `options = { maxWait: 3 }`, no frame scheduler. -/
def cfgC7 : Cfg :=
  { func := fun _ => 0, wait := 0, leading := false, trailing := true,
    maxing := true, maxWait := 3, useRAF := false }

/-- The state after one wrapper call at `t = 0` with arguments `[2]` on a
fresh `cfgDefault` controller: timer live, pending call `[2]`. -/
def sDef1 : DState := (debounced cfgDefault 0 [2] 0 initState).1

/-! ### Helper lemmas -/

theorem startTimer_lastInvokeTime (cfg : Cfg) (now d : Int) (s : DState) :
    (startTimer cfg now d s).1.lastInvokeTime = s.lastInvokeTime := by
  unfold startTimer cancelLive
  split
  · cases s.timerId <;> simp
  · simp

theorem debouncedTail_lastInvokeTime (cfg : Cfg) (t : Int) (s : DState) :
    (debouncedTail cfg t s).1.lastInvokeTime = s.lastInvokeTime := by
  unfold debouncedTail
  split
  · simp [startTimer_lastInvokeTime]
  · rfl

theorem trailingEdge_lastInvokeTime (cfg : Cfg) (t : Int) (s : DState) :
    ((trailingEdge cfg t s).1.lastInvokeTime = s.lastInvokeTime ∧
      (trailingEdge cfg t s).2.1 = none) ∨
    ((trailingEdge cfg t s).1.lastInvokeTime = t ∧
      (trailingEdge cfg t s).2.1.isSome = true) := by
  by_cases hc : (cfg.trailing && s.lastArgs.isSome) = true
  · right; simp [trailingEdge, invokeFunc, hc]
  · left; simp [trailingEdge, invokeFunc, hc]

theorem cleared_cancel (cfg : Cfg) (s : DState) : Cleared (cancel cfg s) := by
  cases ht : s.timerId <;> simp [Cleared, cancel, cancelTimer, ht]

theorem fireTimer_cleared (cfg : Cfg) (t : Int) (h : Nat) (s : DState) (hs : Cleared s) :
    (fireTimer cfg t h s).2 = none ∧ Cleared (fireTimer cfg t h s).1 := by
  obtain ⟨ha, hc, ht⟩ := hs
  refine ⟨?_, ?_, ?_, ?_⟩ <;>
    simp [fireTimer, timerExpired, shouldInvoke, hc, trailingEdge, ha, Cleared]

theorem flush_cleared (cfg : Cfg) (t : Int) (s : DState) (hs : Cleared s) :
    flush cfg t s = (s, none, s.result) := by
  obtain ⟨-, -, ht⟩ := hs
  simp [flush, ht]

theorem runPost_cleared (cfg : Cfg) :
    ∀ (evs : List PostEv) (s : DState), Cleared s →
      (runPost cfg s evs).2 = [] ∧ Cleared (runPost cfg s evs).1 := by
  intro evs
  induction evs with
  | nil => exact fun s hs => ⟨rfl, hs⟩
  | cons e evs ih =>
    intro s hs
    cases e with
    | fireEv t h =>
      obtain ⟨h1, h2⟩ := fireTimer_cleared cfg t h s hs
      obtain ⟨h3, h4⟩ := ih (fireTimer cfg t h s).1 h2
      exact ⟨by simp [runPost, h1, h3], by simpa [runPost] using h4⟩
    | flushEv t =>
      have h1 := flush_cleared cfg t s hs
      obtain ⟨h3, h4⟩ := ih s hs
      refine ⟨?_, ?_⟩ <;> simp [runPost, h1] <;> [exact h3; exact h4]
    | cancelEv =>
      obtain ⟨h3, h4⟩ := ih (cancel cfg s) (cleared_cancel cfg s)
      exact ⟨by simpa [runPost] using h3, by simpa [runPost] using h4⟩

/-! ### The claims -/

/-- C1: the spec's one-live-timer invariant is violated by the code: the
delay-based branch of `startTimer` schedules a new `setTimeout` without
clearing the previous handle, so after a call at `t = 0` (one timer live,
due at `2`) and a second call at `t = 3` delivered before the host has
dispatched that timer (`maxWait = 2` makes `shouldInvoke` true), the
tight-loop path leaves TWO live timer handles for the same controller. -/
theorem duplicate_live_timers :
    sMax1.live.length = 1 ∧
    (debounced cfgMax 3 [2] 0 sMax1).1.live = [(1, some 5), (0, some 2)] ∧
    (debounced cfgMax 3 [2] 0 sMax1).1.live.length = 2 := by
  decide

/-- C2: `shouldInvoke(t)` is true exactly when no prior call has occurred,
or elapsed time since the last call is at least `wait`, or that elapsed
time is negative (clock went backward), or `maxWait` is configured and
elapsed time since the last execution is at least `maxWait`. -/
theorem shouldInvoke_spec (cfg : Cfg) (t : Int) (s : DState) :
    shouldInvoke cfg t s = true ↔
      (s.lastCallTime = none ∨
        ∃ lct, s.lastCallTime = some lct ∧
          (cfg.wait ≤ t - lct ∨ t - lct < 0 ∨
            (cfg.maxing = true ∧ cfg.maxWait ≤ t - s.lastInvokeTime))) := by
  cases hlct : s.lastCallTime with
  | none => simp [shouldInvoke, hlct]
  | some lct => simp [shouldInvoke, hlct, or_assoc]

/-- C4 as stated is false: on a fresh controller with default options, a
wrapper call at `t = 5` performs no execution (`leading` is disabled) yet
moves `lastInvokeTime` from `0` to `5` (the leading-edge timestamp), and a
subsequent `cancel()` moves it backward to `0` without any execution. -/
theorem lastInvokeTime_claim_cex :
    initState.lastInvokeTime = 0 ∧
    (debounced cfgDefault 5 [7] 0 initState).2.1 = none ∧
    (debounced cfgDefault 5 [7] 0 initState).1.lastInvokeTime = 5 ∧
    (cancel cfgDefault (debounced cfgDefault 5 [7] 0 initState).1).lastInvokeTime = 0 := by
  decide

/-- C4 (amended): `lastInvokeTime` changes only via the leading-edge
timestamp of a wrapper call for which `shouldInvoke` held (set to the call
time even when no execution occurs), via an actual execution (set to the
execution time), or via `cancel()` (reset to `0`); timer reschedules and
`flush` without execution leave it unchanged. -/
theorem lastInvokeTime_change_spec (cfg : Cfg) (t : Int) (args : List Int)
    (thisv : Int) (h : Nat) (s : DState) :
    ((debounced cfg t args thisv s).1.lastInvokeTime = s.lastInvokeTime ∨
      ((debounced cfg t args thisv s).1.lastInvokeTime = t ∧
        shouldInvoke cfg t s = true)) ∧
    ((fireTimer cfg t h s).1.lastInvokeTime = s.lastInvokeTime ∨
      ((fireTimer cfg t h s).1.lastInvokeTime = t ∧
        (fireTimer cfg t h s).2.isSome = true)) ∧
    (cancel cfg s).lastInvokeTime = 0 ∧
    ((flush cfg t s).1.lastInvokeTime = s.lastInvokeTime ∨
      ((flush cfg t s).1.lastInvokeTime = t ∧
        (flush cfg t s).2.1.isSome = true)) := by
  refine ⟨?_, ?_, ?_, ?_⟩
  · cases hsi : shouldInvoke cfg t s with
    | false =>
      left
      simp only [debounced, hsi, Bool.false_eq_true, if_false]
      exact debouncedTail_lastInvokeTime cfg t _
    | true =>
      by_cases htid : s.timerId = none
      · right
        refine ⟨?_, rfl⟩
        simp only [debounced, hsi, if_true, htid, leadingEdge]
        split
        · simp [invokeFunc, startTimer_lastInvokeTime]
        · simp [startTimer_lastInvokeTime]
      · cases hmx : cfg.maxing with
        | true =>
          right
          refine ⟨?_, rfl⟩
          simp [debounced, hsi, htid, hmx, invokeFunc]
        | false =>
          left
          simp only [debounced, hsi, if_true, htid, hmx, Bool.false_eq_true, if_false]
          exact debouncedTail_lastInvokeTime cfg t _
  · unfold fireTimer timerExpired
    split
    · rcases trailingEdge_lastInvokeTime cfg t { s with live := s.live.filter (fun p => p.1 != h) }
        with ⟨h1, h2⟩ | ⟨h1, h2⟩
      · left; simpa using h1
      · right; exact ⟨by simpa using h1, by simpa using h2⟩
    · left
      simp [startTimer_lastInvokeTime]
  · cases ht : s.timerId <;> simp [cancel, cancelTimer, ht]
  · cases ht : s.timerId with
    | none => left; simp [flush, ht]
    | some id =>
      rcases trailingEdge_lastInvokeTime cfg t s with ⟨h1, h2⟩ | ⟨h1, h2⟩
      · left; simpa [flush, ht] using h1
      · right; exact ⟨by simpa [flush, ht] using h1, by simpa [flush, ht] using h2⟩

/-- C5: `cancel()` clears the held timer, the pending arguments, the
pending context and `lastCallTime`, leaves the cached result unchanged,
makes `pending()` report false, and no sequence of further call-free
events (timer deliveries, `flush`, `cancel`) ever executes the wrapped
action again. -/
theorem cancel_spec (cfg : Cfg) (s : DState) (evs : List PostEv) :
    (cancel cfg s).timerId = none ∧ (cancel cfg s).lastArgs = none ∧
    (cancel cfg s).lastThis = none ∧ (cancel cfg s).lastCallTime = none ∧
    (cancel cfg s).result = s.result ∧ pending (cancel cfg s) = false ∧
    (runPost cfg (cancel cfg s) evs).2 = [] := by
  refine ⟨?_, ?_, ?_, ?_, ?_, ?_, (runPost_cleared cfg evs (cancel cfg s) (cleared_cancel cfg s)).1⟩ <;>
    cases ht : s.timerId <;> simp [cancel, cancelTimer, pending, ht]

/-- C6 as stated is false: with `leading = true` the first call of a burst
executes immediately and clears the pending arguments while the trailing
timer stays scheduled; `flush()` in that state (timer pending!) performs
no execution and merely returns the cached result. -/
theorem flush_claim_cex :
    ((debounced cfgLead 0 [4] 0 initState).1.timerId).isSome = true ∧
    (debounced cfgLead 0 [4] 0 initState).2.1 =
      some { time := 0, args := [4], ret := 4 } ∧
    (flush cfgLead 1 (debounced cfgLead 0 [4] 0 initState).1).2.1 = none ∧
    (flush cfgLead 1 (debounced cfgLead 0 [4] 0 initState).1).2.2 = some 4 := by
  decide

/-- C6 (amended): with no timer pending, `flush()` returns the cached
result and changes nothing; with a timer pending it executes immediately
with the last recorded arguments and returns that result exactly when
`trailing` is enabled and pending arguments exist, and otherwise performs
no execution, returns the cached result and drops the pending call. -/
theorem flush_spec (cfg : Cfg) (t : Int) (s : DState) :
    (s.timerId = none → flush cfg t s = (s, none, s.result)) ∧
    (∀ a, s.timerId ≠ none → cfg.trailing = true → s.lastArgs = some a →
      (flush cfg t s).2.1 = some { time := t, args := a, ret := cfg.func a } ∧
      (flush cfg t s).2.2 = some (cfg.func a) ∧
      (flush cfg t s).1.result = some (cfg.func a) ∧
      (flush cfg t s).1.timerId = none) ∧
    (s.timerId ≠ none → (cfg.trailing = false ∨ s.lastArgs = none) →
      (flush cfg t s).2.1 = none ∧ (flush cfg t s).2.2 = s.result ∧
      (flush cfg t s).1.lastArgs = none ∧ (flush cfg t s).1.timerId = none) := by
  refine ⟨?_, ?_, ?_⟩
  · intro ht; simp [flush, ht]
  · intro a ht htr hla
    cases htid : s.timerId with
    | none => exact absurd htid ht
    | some id =>
      simp [flush, htid, trailingEdge, htr, hla, invokeFunc]
  · intro ht hcase
    cases htid : s.timerId with
    | none => exact absurd htid ht
    | some id =>
      rcases hcase with htr | hla
      · simp [flush, htid, trailingEdge, htr]
      · simp [flush, htid, trailingEdge, hla]

/-- Witness for C6's amended theorem: on a default controller with one
recorded call `[2]` and its timer pending, `flush` at `t = 5` executes
with `[2]` and returns `2`. -/
theorem flush_spec_witness :
    (flush cfgDefault 5 sDef1).2.1 = some { time := 5, args := [2], ret := 2 } ∧
    (flush cfgDefault 5 sDef1).2.2 = some 2 ∧
    (flush cfgDefault 5 sDef1).1.timerId = none := by
  have h := (flush_spec cfgDefault 5 sDef1).2.1 [2] (by decide) rfl (by decide)
  exact ⟨h.1, h.2.1, h.2.2.2⟩

/-- C7: construction fails (with the one type error) exactly when the
supplied action is not callable; otherwise every input is coerced: a
non-numeric `wait` becomes `0`, and a supplied `maxWait` is coerced to a
number at least `wait` (and `maxWait` is configured exactly when the
options object supplies the field). -/
theorem construction_spec (fv wv : JSVal) (f : List Int → Int)
    (options : Option JSOptions) (hasRAF : Bool) :
    (ctorOk (mkCfg fv f wv options hasRAF) = false ↔ isCallable fv = false) ∧
    (∀ cfg, mkCfg fv f wv options hasRAF = Except.ok cfg →
      (jsToNum wv = none → cfg.wait = 0) ∧
      (cfg.maxing = true → cfg.wait ≤ cfg.maxWait) ∧
      (cfg.maxing = true ↔ ∃ o, options = some o ∧ o.maxWait.isSome = true)) := by
  constructor
  · cases h : isCallable fv <;> simp [mkCfg, ctorOk, h]
  · intro cfg hok
    cases h : isCallable fv with
    | false => simp [mkCfg, h] at hok
    | true =>
      simp only [mkCfg, h, Bool.true_eq_false, if_false, if_neg, Except.ok.injEq] at hok
      subst hok
      refine ⟨?_, ?_, ?_⟩
      · intro hw; simp [numOr0, hw]
      · cases options with
        | none => simp
        | some o =>
          cases hmw : o.maxWait with
          | none => simp [hmw]
          | some mv => simp [hmw, le_max_right]
      · cases options with
        | none => simp
        | some o => cases hmw : o.maxWait <;> simp [hmw]

/-- Witness for C7: a callable action with `wait = undefined` and
`options = { maxWait: 3 }` constructs `cfgC7`, whose `wait` is `0` and
whose `maxWait` is at least `wait`. -/
theorem construction_spec_witness :
    ctorOk (mkCfg JSVal.fnv (fun _ => 0) JSVal.undef
      (some { leading := none, maxWait := some (JSVal.num 3), trailing := none })
      false) = true ∧
    cfgC7.wait = 0 ∧ cfgC7.wait ≤ cfgC7.maxWait := by
  have h := construction_spec JSVal.fnv JSVal.undef (fun _ => 0)
      (some { leading := none, maxWait := some (JSVal.num 3), trailing := none }) false
  have h2 := h.2 cfgC7 rfl
  exact ⟨rfl, h2.1 rfl, h2.2.1 rfl⟩

/-- C8: when the scheduled callback runs at `t` and `shouldInvoke(t)`
holds, the trailing edge clears the held timer and the pending call either
way, executes and caches the result exactly when `trailing` is enabled and
pending arguments exist; when `shouldInvoke(t)` fails, a new timer is
scheduled due `min(wait - sinceLastCall, maxWait - sinceLastInvoke)` later
when `maxWait` is configured and `wait - sinceLastCall` later otherwise. -/
theorem timer_expiry_spec (cfg : Cfg) (t : Int) (s : DState)
    (hraf : cfg.useRAF = false) :
    (shouldInvoke cfg t s = true →
      (timerExpired cfg t s).1.timerId = none ∧
      (timerExpired cfg t s).1.lastArgs = none ∧
      (timerExpired cfg t s).1.lastThis = none ∧
      ((timerExpired cfg t s).2.isSome = true ↔
        (cfg.trailing = true ∧ s.lastArgs.isSome = true)) ∧
      (∀ a, cfg.trailing = true → s.lastArgs = some a →
        (timerExpired cfg t s).2 = some { time := t, args := a, ret := cfg.func a } ∧
        (timerExpired cfg t s).1.result = some (cfg.func a))) ∧
    (∀ lct, shouldInvoke cfg t s = false → s.lastCallTime = some lct →
      ∃ h2, (timerExpired cfg t s).1.timerId = some h2 ∧
        (h2, some (t + (if cfg.maxing = true then
            min (cfg.wait - (t - lct)) (cfg.maxWait - (t - s.lastInvokeTime))
          else cfg.wait - (t - lct)))) ∈ (timerExpired cfg t s).1.live ∧
        (timerExpired cfg t s).2 = none) := by
  constructor
  · intro hsi
    cases htr : cfg.trailing with
    | false =>
      refine ⟨?_, ?_, ?_, ?_, ?_⟩ <;>
        simp [timerExpired, hsi, trailingEdge, htr, invokeFunc]
    | true =>
      cases hla : s.lastArgs with
      | none =>
        refine ⟨?_, ?_, ?_, ?_, ?_⟩ <;>
          simp [timerExpired, hsi, trailingEdge, htr, hla, invokeFunc]
      | some a =>
        refine ⟨?_, ?_, ?_, ?_, ?_⟩ <;>
          simp [timerExpired, hsi, trailingEdge, htr, hla, invokeFunc]
  · intro lct hsi hlct
    refine ⟨s.nextHandle, ?_, ?_, ?_⟩ <;>
      simp [timerExpired, hsi, startTimer, hraf, remainingWait, hlct]

/-- Witness for C8: on the `cfgMax` controller after its first call, the
callback at `t = 2` is due and executes with `[1]`, while at `t = 1` it is
not due and performs no execution. -/
theorem timer_expiry_spec_witness :
    (timerExpired cfgMax 2 sMax1).2 = some { time := 2, args := [1], ret := 1 } ∧
    (timerExpired cfgMax 1 sMax1).2 = none := by
  have h1 := (timer_expiry_spec cfgMax 2 sMax1 rfl).1 (by decide)
  have h2 := (timer_expiry_spec cfgMax 1 sMax1 rfl).2 0 (by decide) (by decide)
  refine ⟨(h1.2.2.2.2 [1] rfl (by decide)).1, ?_⟩
  obtain ⟨hh, -, -, hnone⟩ := h2
  exact hnone

/-- C9: a wrapper call at `t` with `shouldInvoke(t)` true, a timer already
held and `maxWait` configured schedules a fresh timer due a full `wait`
after `t`, holds its handle in `timerId`, and executes immediately with
the call's own arguments, the call returning that execution's result. -/
theorem maxing_call_spec (cfg : Cfg) (t : Int) (args : List Int) (thisv : Int)
    (s : DState) (hsi : shouldInvoke cfg t s = true) (htid : s.timerId ≠ none)
    (hmx : cfg.maxing = true) (hraf : cfg.useRAF = false) :
    ∃ h2, (debounced cfg t args thisv s).1.timerId = some h2 ∧
      (h2, some (t + cfg.wait)) ∈ (debounced cfg t args thisv s).1.live ∧
      (debounced cfg t args thisv s).2.1 =
        some { time := t, args := args, ret := cfg.func args } ∧
      (debounced cfg t args thisv s).2.2 = some (cfg.func args) ∧
      (debounced cfg t args thisv s).1.result = some (cfg.func args) := by
  refine ⟨s.nextHandle, ?_, ?_, ?_, ?_, ?_⟩ <;>
    simp [debounced, hsi, htid, hmx, startTimer, hraf, invokeFunc]

/-- Evaluation of `shouldInvoke` once the last call time is known. -/
theorem shouldInvoke_eval (cfg : Cfg) (tm tk : Int) (s : DState)
    (hlct : s.lastCallTime = some tk) :
    shouldInvoke cfg tm s =
      (decide (cfg.wait ≤ tm - tk) || decide (tm - tk < 0) ||
        (cfg.maxing && decide (cfg.maxWait ≤ tm - s.lastInvokeTime))) := by
  unfold shouldInvoke
  rw [hlct]

/-- The first call of a burst on a fresh default-options controller takes
the leading edge without executing and leaves the burst invariant. -/
theorem burst_first (cfg : Cfg) (hld : cfg.leading = false) (hraf : cfg.useRAF = false)
    (hw : 0 < cfg.wait) (t1 : Int) (a1 : List Int) :
    (burstStep cfg initState t1 a1).2 = [] ∧
    BurstInv cfg t1 a1 (burstStep cfg initState t1 a1).1 := by
  constructor
  · simp [burstStep, currentExpiry, initState, debounced, shouldInvoke, leadingEdge,
      startTimer, hraf, hld]
  · refine ⟨?_, ?_, 0, t1 + cfg.wait, ?_, ?_, ?_, ?_⟩ <;>
      simp [burstStep, currentExpiry, initState, debounced, shouldInvoke, leadingEdge,
        startTimer, hraf, hld] <;> omega

/-- One further burst call, delivered less than `wait` after the previous
one, fires no execution and preserves the burst invariant (whether or not
the held timer was due and rescheduled first). -/
theorem burst_step_inv (cfg : Cfg) (hld : cfg.leading = false) (hmx : cfg.maxing = false)
    (hraf : cfg.useRAF = false) (tk t : Int) (ak a : List Int) (s : DState)
    (hInv : BurstInv cfg tk ak s) (hle : tk ≤ t) (hlt : t - tk < cfg.wait) :
    (burstStep cfg s t a).2 = [] ∧ BurstInv cfg t a (burstStep cfg s t a).1 := by
  obtain ⟨hlct, hla, h, e, htid, hlive, he1, he2⟩ := hInv
  have hexp : currentExpiry s = some e := by
    simp [currentExpiry, htid, hlive, List.find?]
  have hnwait : ¬(cfg.wait ≤ t - tk) := by omega
  have hnneg : ¬(t - tk < 0) := by omega
  by_cases hfire : e ≤ t
  · have hew : ¬(cfg.wait ≤ e - tk) := by omega
    have heneg : ¬(e - tk < 0) := by omega
    constructor
    · simp [burstStep, htid, hexp, hfire, fireTimer, timerExpired, shouldInvoke_eval, hlct,
        hmx, hew, heneg, hnwait, hnneg, startTimer, hraf, remainingWait, hlive,
        debounced, debouncedTail]
    · have hbound1 : t < e + (cfg.wait - (e - tk)) := by omega
      have hbound2 : e + (cfg.wait - (e - tk)) ≤ t + cfg.wait := by omega
      refine ⟨?_, ?_, s.nextHandle, e + (cfg.wait - (e - tk)), ?_, ?_, hbound1, hbound2⟩ <;>
        simp [burstStep, htid, hexp, hfire, fireTimer, timerExpired, shouldInvoke_eval, hlct,
          hmx, hew, heneg, hnwait, hnneg, startTimer, hraf, remainingWait, hlive,
          debounced, debouncedTail] <;> omega
  · constructor
    · simp [burstStep, htid, hexp, hfire, debounced, shouldInvoke_eval, hlct, hmx,
        hnwait, hnneg, debouncedTail]
    · have hbound1 : t < e := by omega
      have hbound2 : e ≤ t + cfg.wait := by omega
      refine ⟨?_, ?_, h, e, ?_, ?_, hbound1, hbound2⟩ <;>
        simp [burstStep, htid, hexp, hfire, debounced, shouldInvoke_eval, hlct, hmx,
          hnwait, hnneg, debouncedTail, hlive]

/-- Delivering the rest of a burst (consecutive gaps under `wait`) from a
state satisfying the burst invariant fires no execution and re-establishes
the invariant at the last call. -/
theorem runBurst_inv (cfg : Cfg) (hld : cfg.leading = false) (hmx : cfg.maxing = false)
    (hraf : cfg.useRAF = false) :
    ∀ (rest : List (Int × List Int)) (tk : Int) (ak : List Int) (s : DState),
      BurstInv cfg tk ak s →
      List.Chain (fun p q => p.1 ≤ q.1 ∧ q.1 - p.1 < cfg.wait) (tk, ak) rest →
      (runBurst cfg s rest).2 = [] ∧
      BurstInv cfg (rest.foldl (fun _ q => q) (tk, ak)).1
        (rest.foldl (fun _ q => q) (tk, ak)).2 (runBurst cfg s rest).1 := by
  intro rest
  induction rest with
  | nil => exact fun tk ak s hInv hch => ⟨rfl, hInv⟩
  | cons p rest ih =>
    intro tk ak s hInv hch
    obtain ⟨t, a⟩ := p
    rw [List.chain_cons] at hch
    obtain ⟨⟨hle, hlt⟩, hch2⟩ := hch
    obtain ⟨hb2, hbInv⟩ := burst_step_inv cfg hld hmx hraf tk t ak a s hInv hle hlt
    obtain ⟨hr2, hrInv⟩ := ih t a (burstStep cfg s t a).1 hbInv hch2
    constructor
    · simp [runBurst, hb2, hr2]
    · simpa [runBurst, List.foldl] using hrInv

/-- After the last call of a default-options burst, the pending timer
(fired exactly at its due times) produces exactly one trailing execution,
`wait` after the last call and with its arguments, leaving the controller
quiescent with no live timer. -/
theorem drain_spec (cfg : Cfg) (htr : cfg.trailing = true) (hmx : cfg.maxing = false)
    (hraf : cfg.useRAF = false) (tN : Int) (aN : List Int) (s : DState)
    (hInv : BurstInv cfg tN aN s) :
    (drain cfg s).2 = [{ time := tN + cfg.wait, args := aN, ret := cfg.func aN }] ∧
    (drain cfg s).1.timerId = none ∧ (drain cfg s).1.live = [] := by
  obtain ⟨hlct, hla, h, e, htid, hlive, he1, he2⟩ := hInv
  have hexp : currentExpiry s = some e := by
    simp [currentExpiry, htid, hlive, List.find?]
  by_cases hdone : cfg.wait ≤ e - tN
  · have heq : e = tN + cfg.wait := by omega
    subst heq
    refine ⟨?_, ?_, ?_⟩ <;>
      simp [drain, htid, hexp, fireTimer, timerExpired, shouldInvoke_eval, hlct, hdone,
        trailingEdge, htr, hla, invokeFunc, currentExpiry, hlive]
  · have hnneg : ¬(e - tN < 0) := by omega
    have hdone2 : cfg.wait ≤ (e + (cfg.wait - (e - tN))) - tN := by omega
    refine ⟨?_, ?_, ?_⟩ <;>
      simp [drain, htid, hexp, fireTimer, timerExpired, shouldInvoke_eval, hlct, hmx,
        hdone, hnneg, hdone2, startTimer, hraf, remainingWait, currentExpiry, hlive,
        List.find?, trailingEdge, htr, hla, invokeFunc] <;> omega

/-- C3: a burst of `N ≥ 1` wrapper calls, consecutive calls less than
`wait` apart, on a fresh controller with default options (`leading`
false, `trailing` true, no `maxWait`, delay-based backend, positive
`wait`), with the host delivering the scheduled callback exactly at its
due times, produces exactly one execution of the wrapped action, carrying
the arguments of the last call and fired `wait` milliseconds after the
last call; afterwards no timer is held and none is live. -/
theorem default_burst_single_execution (cfg : Cfg)
    (hld : cfg.leading = false) (htr : cfg.trailing = true) (hmx : cfg.maxing = false)
    (hraf : cfg.useRAF = false) (hw : 0 < cfg.wait)
    (t1 : Int) (a1 : List Int) (rest : List (Int × List Int))
    (hch : List.Chain (fun p q => p.1 ≤ q.1 ∧ q.1 - p.1 < cfg.wait) (t1, a1) rest) :
    (runBurstThenSettle cfg ((t1, a1) :: rest)).2 =
      [{ time := (rest.foldl (fun _ q => q) (t1, a1)).1 + cfg.wait,
         args := (rest.foldl (fun _ q => q) (t1, a1)).2,
         ret := cfg.func (rest.foldl (fun _ q => q) (t1, a1)).2 }] ∧
    (runBurstThenSettle cfg ((t1, a1) :: rest)).1.timerId = none ∧
    (runBurstThenSettle cfg ((t1, a1) :: rest)).1.live = [] := by
  obtain ⟨hb2, hbInv⟩ := burst_first cfg hld hraf hw t1 a1
  obtain ⟨hr2, hrInv⟩ := runBurst_inv cfg hld hmx hraf rest t1 a1 _ hbInv hch
  obtain ⟨hd2, hdtid, hdlive⟩ := drain_spec cfg htr hmx hraf _ _ _ hrInv
  refine ⟨?_, ?_, ?_⟩ <;>
    simp [runBurstThenSettle, runBurst, hb2, hr2, hd2, hdtid, hdlive]

/-- Witness for C3: the burst `[1]@0, [2]@5, [3]@9` with `wait = 10`
executes exactly once, at `t = 19` with arguments `[3]`. -/
theorem default_burst_witness :
    (runBurstThenSettle cfgDefault
        [((0 : Int), ([1] : List Int)), (5, [2]), (9, [3])]).2 =
      [{ time := 19, args := [3], ret := 3 }] ∧
    (runBurstThenSettle cfgDefault
        [((0 : Int), ([1] : List Int)), (5, [2]), (9, [3])]).1.live = [] := by
  have h := default_burst_single_execution cfgDefault rfl rfl rfl rfl (by decide)
      0 [1] [(5, [2]), (9, [3])] (by simp [List.chain_cons, cfgDefault])
  exact ⟨by simpa [cfgDefault] using h.1, h.2.2⟩

/-- Witness for C9: on the `cfgMax` controller after its first call, the
call at `t = 3` (max-wait ceiling hit, timer still held) executes with
`[2]` immediately and returns `2`. -/
theorem maxing_call_spec_witness :
    (debounced cfgMax 3 [2] 0 sMax1).2.1 =
      some { time := 3, args := [2], ret := 2 } ∧
    (debounced cfgMax 3 [2] 0 sMax1).2.2 = some 2 := by
  obtain ⟨h2, -, -, hinv, hret, -⟩ :=
    maxing_call_spec cfgMax 3 [2] 0 sMax1 (by decide) (by decide) rfl rfl
  exact ⟨hinv, hret⟩

end Debounce
